import Mathlib

/-!
Verification development for the backtest execution engine of the
opentrade-bot repository: the Position Ledger (`src/core/portfolio.py`,
class `Portfolio`) and the Backtest Driver (`src/core/trader.py`,
function `run_backtest`).

Modelling decisions (shallow embedding of the Python source):
* Python floats are modelled as rationals (`ℚ`); the spec's numeric
  requirements are over the reals and every concrete scenario is exact.
* Python exceptions are modelled with `Except`: a raising call returns
  `.error e` and, since every mutation in the source happens only after
  all raising expressions have been evaluated, an `.error` result means
  the ledger object is unchanged.
* Price-like arguments may arrive as plain numbers, numpy arrays, pandas
  Series, or plain Python sequences (lists/tuples); the type `PriceLike`
  covers these shapes and `Portfolio.to_scalar` embeds
  `Portfolio._to_scalar` over them.
* `1.0 / 0.0` raises `ZeroDivisionError` in Python, so the division in
  `Portfolio.buy` is guarded by an explicit error case for a zero price.
* Signal values are taken after the driver's `_scalar_signal` / NaN
  normalisation, as integers: every claim under study supplies plain
  scalar signals, and any non-scalar or NaN signal normalises to `0`,
  which is already an inhabitant of `ℤ`.
-/

deriving instance DecidableEq for Except

/-- Exceptions the Position Ledger operations can raise:
`valueError` for the coercion failures raised by `_to_scalar`, and
`zeroDivisionError` for the unguarded `self.cash / p` in `buy`. -/
inductive PErr : Type
  | valueError
  | zeroDivisionError
  deriving DecidableEq, Repr

/-- The shapes a price-like argument can take at the Python call sites:
a plain number, a numpy `ndarray`, a pandas `Series`, or a plain Python
sequence (list or tuple). -/
inductive PriceLike : Type
  | num (x : ℚ)
  | ndarray (xs : List ℚ)
  | series (xs : List ℚ)
  | pyList (xs : List ℚ)
  deriving DecidableEq, Repr

/-- Trade actions recorded in the trade log. -/
inductive TradeAction : Type
  | BUY
  | SELL
  deriving DecidableEq, Repr

/-- A trade record: `(date, action, price)` as appended by
`Portfolio.buy` / `Portfolio.sell`.  Timestamps are opaque labels,
modelled as `Nat`. -/
abbrev Trade : Type := Nat × TradeAction × ℚ

/-- The Position Ledger state: `cash`, `position` and the append-only
`trade_log`, exactly the attributes set in `Portfolio.__init__`. -/
structure Portfolio : Type where
  cash : ℚ
  position : ℚ
  trade_log : List Trade
  deriving DecidableEq, Repr

namespace Portfolio

/-- `Portfolio.__init__`: seeds `cash` from the argument, `position = 0`
and an empty `trade_log`.  The source performs no validation of the
capital (in particular no sign check), so construction is total. -/
def init (cash : ℚ) : Portfolio :=
  { cash := cash, position := 0, trade_log := [] }

/-- `Portfolio._to_scalar`: a pandas Series or numpy ndarray of size one
unwraps to its sole element; a longer (or empty) one raises `ValueError`;
a plain number passes through; any other value falls to `float(v)`,
which raises `TypeError` on a list or tuple, caught and re-raised as
`ValueError`. -/
def to_scalar : PriceLike → Except PErr ℚ
  | .num x => .ok x
  | .series [x] => .ok x
  | .series _ => .error .valueError
  | .ndarray [x] => .ok x
  | .ndarray _ => .error .valueError
  | .pyList _ => .error .valueError

/-- `Portfolio.buy`: coerces the price first (so a coercion failure
raises even when already holding); then, only if flat
(`position == 0`), converts all cash into `cash / p` units — a division
that raises `ZeroDivisionError` when `p = 0` — zeroes the cash and
appends a BUY record.  Otherwise a no-op. -/
def buy (pf : Portfolio) (price : PriceLike) (date : Nat) :
    Except PErr Portfolio :=
  match to_scalar price with
  | .error e => .error e
  | .ok p =>
    if pf.position = 0 then
      if p = 0 then .error .zeroDivisionError
      else
        .ok { cash := 0, position := pf.cash / p,
              trade_log := pf.trade_log ++ [(date, TradeAction.BUY, p)] }
    else .ok pf

/-- `Portfolio.sell`: coerces the price first; then, only if holding
(`position > 0`), converts all units to cash at `p`, zeroes the
position and appends a SELL record.  Otherwise a no-op. -/
def sell (pf : Portfolio) (price : PriceLike) (date : Nat) :
    Except PErr Portfolio :=
  match to_scalar price with
  | .error e => .error e
  | .ok p =>
    if pf.position > 0 then
      .ok { cash := pf.position * p, position := 0,
            trade_log := pf.trade_log ++ [(date, TradeAction.SELL, p)] }
    else .ok pf

/-- `Portfolio.value`: coerces the price and returns
`cash + position * p`; pure, no state change. -/
def value (pf : Portfolio) (current_price : PriceLike) : Except PErr ℚ :=
  match to_scalar current_price with
  | .error e => .error e
  | .ok p => .ok (pf.cash + pf.position * p)

end Portfolio

/-- One input row of the backtest driver: a timestamp label, the raw
`Close` cell (price-like), and the (already normalised) `Signal`. -/
structure Row : Type where
  ts : Nat
  close : PriceLike
  signal : ℤ
  deriving DecidableEq, Repr

/-- Failures of a `run_backtest` call: a ledger exception propagating
out of `buy`/`sell`/`value` — carrying the ledger state at the moment
the exception escapes — or the `IndexError` raised by
`df["Close"].iloc[-1]` on an empty row sequence. -/
inductive RunErr : Type
  | portfolioErr (pf : Portfolio) (e : PErr)
  | indexError
  deriving DecidableEq, Repr

/-- The loop body of `run_backtest` for one row: the debouncing
transition rule.  `buy` is attempted when the signal is `1` and
`last_signal ≠ 1`, `sell` when the signal is `-1` and
`last_signal ≠ -1`; in either firing branch `last_signal` is assigned
after the call returns, whether or not the ledger actually traded.  Any
other signal leaves both the ledger and `last_signal` unchanged. -/
def step (pf : Portfolio) (last : ℤ) (row : Row) :
    Except PErr (Portfolio × ℤ) :=
  if row.signal = 1 ∧ last ≠ 1 then
    match Portfolio.buy pf row.close row.ts with
    | .error e => .error e
    | .ok pf' => .ok (pf', 1)
  else if row.signal = -1 ∧ last ≠ -1 then
    match Portfolio.sell pf row.close row.ts with
    | .error e => .error e
    | .ok pf' => .ok (pf', -1)
  else .ok (pf, last)

/-- The `for i, row in df.iterrows()` loop of `run_backtest`: rows are
consumed in order; a ledger exception aborts the loop, carrying the
ledger state reached so far (the failing call itself mutates nothing
because the source mutates only after all raising expressions). -/
def runRows (pf : Portfolio) (last : ℤ) :
    List Row → Except (Portfolio × PErr) (Portfolio × ℤ)
  | [] => .ok (pf, last)
  | r :: rs =>
    match step pf last r with
    | .error e => .error (pf, e)
    | .ok (pf', last') => runRows pf' last' rs

/-- `run_backtest`: builds a fresh `Portfolio` seeded with
`initial_capital`, runs the debounced loop over the rows, then values
the ledger at `df["Close"].iloc[-1]` — an access that raises
`IndexError` when the row sequence is empty — and returns the portfolio
together with the final value. -/
def run_backtest (rows : List Row) (initial_capital : ℚ) :
    Except RunErr (Portfolio × ℚ) :=
  match runRows (Portfolio.init initial_capital) 0 rows with
  | .error (pf, e) => .error (.portfolioErr pf e)
  | .ok (pf, _) =>
    match rows.getLast? with
    | none => .error .indexError
    | some r =>
      match pf.value r.close with
      | .error e => .error (.portfolioErr pf e)
      | .ok v => .ok (pf, v)

/-- C3: with initial capital 100000 and rows
`(t1, 100, +1), (t2, 110, 0), (t3, 90, -1)`, the run returns the trade
log `[(t1, BUY, 100), (t3, SELL, 90)]` and final value `90000`. -/
theorem c3_concrete_scenario :
    ∃ pf : Portfolio,
      run_backtest
          [⟨1, .num 100, 1⟩, ⟨2, .num 110, 0⟩, ⟨3, .num 90, -1⟩]
          100000 = .ok (pf, 90000) ∧
      pf.trade_log = [(1, TradeAction.BUY, 100), (3, TradeAction.SELL, 90)] ∧
      pf.cash = 90000 ∧ pf.position = 0 := by
  refine ⟨⟨90000, 0, [(1, TradeAction.BUY, 100), (3, TradeAction.SELL, 90)]⟩, ?_, rfl, rfl, rfl⟩
  norm_num [run_backtest, runRows, step, Portfolio.buy, Portfolio.sell,
    Portfolio.value, Portfolio.to_scalar, Portfolio.init, List.getLast?]

/-- C5 counterexample: constructing the ledger with negative capital
`-1000` does not fail — the driver call completes normally, returning a
ledger seeded with the negative cash, and direct construction yields an
ordinary state.  No `InvalidCapitalError` check exists in the source. -/
theorem c5_counterexample :
    Portfolio.init (-1000) =
      { cash := -1000, position := 0, trade_log := [] } ∧
    run_backtest [⟨1, .num 100, 0⟩] (-1000) =
      .ok (Portfolio.init (-1000), -1000) := by
  constructor
  · rfl
  · norm_num [run_backtest, runRows, step, Portfolio.value,
      Portfolio.to_scalar, Portfolio.init, List.getLast?]

/-- C5 amended: construction is total and unvalidated — for every
capital, negative included, the ledger is seeded with `cash` equal to
the argument, zero position and an empty trade log, and no error is
ever reported at construction time. -/
theorem c5_no_capital_validation (c : ℚ) :
    Portfolio.init c = { cash := c, position := 0, trade_log := [] } := rfl

/-- C9: calling the driver with zero rows fails with the empty-input
condition (the `IndexError` from `df["Close"].iloc[-1]`), returns no
result, and the ledger built for the run holds no trade log entries. -/
theorem c9_empty_input (cap : ℚ) :
    run_backtest [] cap = .error .indexError ∧
    (Portfolio.init cap).trade_log = [] := ⟨rfl, rfl⟩

/-- C10: on a flat ledger with positive cash, `buy` with a price
coercing to `0` reaches the unguarded division `cash / p` and fails
with `ZeroDivisionError` rather than the documented coercion error; no
positivity check exists, so a negative coerced price is accepted and the
trade executes, and `sell` and `value` accept any coerced price. -/
theorem c10_zero_price_division (pf : Portfolio) (d : Nat)
    (hflat : pf.position = 0) (hcash : 0 < pf.cash) :
    Portfolio.buy pf (.num 0) d = .error .zeroDivisionError ∧
    (∀ p : ℚ, p < 0 →
      Portfolio.buy pf (.num p) d =
        .ok { cash := 0, position := pf.cash / p,
              trade_log := pf.trade_log ++ [(d, TradeAction.BUY, p)] }) ∧
    (∀ p : ℚ, Portfolio.sell pf (.num p) d = .ok pf) ∧
    (∀ p : ℚ, Portfolio.value pf (.num p) =
        .ok (pf.cash + pf.position * p)) := by
  refine ⟨?_, ?_, ?_, ?_⟩
  · simp [Portfolio.buy, Portfolio.to_scalar, hflat]
  · intro p hp
    simp [Portfolio.buy, Portfolio.to_scalar, hflat, ne_of_lt hp]
  · intro p
    simp [Portfolio.sell, Portfolio.to_scalar, hflat]
  · intro p
    simp [Portfolio.value, Portfolio.to_scalar]

/-- C10 witness: the properties hold at the freshly constructed ledger
with capital 100000. -/
theorem c10_zero_price_division_witness :
    Portfolio.buy (Portfolio.init 100000) (.num 0) 7 =
      .error .zeroDivisionError ∧
    Portfolio.sell (Portfolio.init 100000) (.num (-5)) 7 =
      .ok (Portfolio.init 100000) := by
  have h := c10_zero_price_division (Portfolio.init 100000) 7 rfl
    (by norm_num [Portfolio.init])
  exact ⟨h.1, h.2.2.1 (-5)⟩

/-- C6 counterexample: on a ledger holding a position (`position = 10 > 0`),
`buy` with a two-element ndarray price raises `ValueError` instead of
being a silent no-op — the coercion runs before the holding check. -/
theorem c6_counterexample :
    (0 : ℚ) < (10 : ℚ) ∧
    Portfolio.buy { cash := 0, position := 10, trade_log := [] }
        (.ndarray [1, 2]) 0 = .error .valueError := by
  constructor
  · norm_num
  · rfl

/-- C6 amended: `buy` coerces the price before checking the holding
state, so on a ledger with `position > 0` its result is exactly the
coercion result mapped to the unchanged ledger: a no-op (state and
trade log unchanged) when the price coerces, and a `ValueError`-class
failure exactly when the price cannot be coerced. -/
theorem c6_buy_noop_when_holding (pf : Portfolio) (price : PriceLike)
    (d : Nat) (hpos : 0 < pf.position) :
    Portfolio.buy pf price d =
      (Portfolio.to_scalar price).map (fun _ => pf) := by
  unfold Portfolio.buy
  cases h : Portfolio.to_scalar price with
  | error e => simp [Except.map]
  | ok p => simp [Except.map, ne_of_gt hpos]

/-- C6 witness: on a ledger with `position = 10 > 0`, a scalar price is
a no-op and a two-element ndarray raises `ValueError`. -/
theorem c6_buy_noop_when_holding_witness :
    Portfolio.buy { cash := 0, position := 10, trade_log := [] }
        (.num 5) 3 = .ok { cash := 0, position := 10, trade_log := [] } ∧
    Portfolio.buy { cash := 0, position := 10, trade_log := [] }
        (.ndarray [1, 2]) 3 = .error .valueError := by
  have h1 := c6_buy_noop_when_holding
    { cash := 0, position := 10, trade_log := [] } (.num 5) 3 (by norm_num)
  have h2 := c6_buy_noop_when_holding
    { cash := 0, position := 10, trade_log := [] } (.ndarray [1, 2]) 3
    (by norm_num)
  exact ⟨h1.trans rfl, h2.trans rfl⟩

/-- C7 counterexample: a plain Python sequence (list) holding exactly
one number is *not* treated like the bare scalar — `_to_scalar` falls
through to `float(v)`, which fails on a list, so `buy` raises
`ValueError` while the bare scalar executes the trade. -/
theorem c7_counterexample :
    Portfolio.buy (Portfolio.init 100000) (.pyList [100]) 1 =
      .error .valueError ∧
    Portfolio.buy (Portfolio.init 100000) (.num 100) 1 =
      .ok { cash := 0, position := 1000,
            trade_log := [(1, TradeAction.BUY, 100)] } := by
  constructor
  · rfl
  · norm_num [Portfolio.buy, Portfolio.to_scalar, Portfolio.init]

/-- C7 amended: a single-element numpy array or pandas Series passed as
price yields exactly the same result of `buy`, `sell` and `value` as
the bare scalar it contains; any array or Series whose length is not
exactly one is rejected with the coercion failure; and a plain Python
sequence (list/tuple) is rejected regardless of its length, even with a
single element. -/
theorem c7_scalar_coercion_roundtrip (pf : Portfolio) (x : ℚ) (d : Nat) :
    (Portfolio.buy pf (.ndarray [x]) d = Portfolio.buy pf (.num x) d ∧
     Portfolio.buy pf (.series [x]) d = Portfolio.buy pf (.num x) d) ∧
    (Portfolio.sell pf (.ndarray [x]) d = Portfolio.sell pf (.num x) d ∧
     Portfolio.sell pf (.series [x]) d = Portfolio.sell pf (.num x) d) ∧
    (Portfolio.value pf (.ndarray [x]) = Portfolio.value pf (.num x) ∧
     Portfolio.value pf (.series [x]) = Portfolio.value pf (.num x)) ∧
    (∀ xs : List ℚ, xs.length ≠ 1 →
      Portfolio.to_scalar (.ndarray xs) = .error .valueError ∧
      Portfolio.to_scalar (.series xs) = .error .valueError) ∧
    (∀ xs : List ℚ,
      Portfolio.to_scalar (.pyList xs) = .error .valueError) := by
  refine ⟨⟨rfl, rfl⟩, ⟨rfl, rfl⟩, ⟨rfl, rfl⟩, ?_, fun xs => rfl⟩
  intro xs hxs
  match xs, hxs with
  | [], _ => exact ⟨rfl, rfl⟩
  | [x], h => exact absurd rfl h
  | x :: y :: rest, _ => exact ⟨rfl, rfl⟩

/-- C7 witness: the round-trip and rejection facts instantiated on a
fresh ledger with capital 100000, element 100 and the two-element
list `[1, 2]`. -/
theorem c7_scalar_coercion_roundtrip_witness :
    Portfolio.buy (Portfolio.init 100000) (.ndarray [100]) 1 =
      Portfolio.buy (Portfolio.init 100000) (.num 100) 1 ∧
    Portfolio.to_scalar (.ndarray [1, 2]) = .error .valueError := by
  have h := c7_scalar_coercion_roundtrip (Portfolio.init 100000) 100 1
  exact ⟨h.1.1, (h.2.2.2.1 [1, 2] (by norm_num)).1⟩

/-- C4 counterexample: processing the single row `(t = 1, close 100,
signal -1)` from a fresh ledger appends no trade record (the `sell` is
a no-op on a flat book — the ledger is returned unchanged with its
empty log), yet `last_signal` changes from `0` to `-1`. -/
theorem c4_counterexample :
    runRows (Portfolio.init 100000) 0 [⟨1, .num 100, -1⟩] =
      .ok (Portfolio.init 100000, -1) ∧
    (Portfolio.init 100000).trade_log = [] := by
  constructor
  · norm_num [runRows, step, Portfolio.sell, Portfolio.to_scalar,
      Portfolio.init]
  · rfl

/-- C4 amended: after a successfully processed row, `last_signal` is
`+1` when the row fired the buy branch (`signal = 1` and the previous
`last_signal ≠ 1`), `-1` when it fired the sell branch (`signal = -1`
and the previous `last_signal ≠ -1`), and unchanged otherwise — the
update depends only on the debounce condition, not on whether the
ledger appended a trade record. -/
theorem c4_last_signal_update (pf : Portfolio) (last : ℤ) (row : Row)
    (pf' : Portfolio) (last' : ℤ)
    (h : step pf last row = .ok (pf', last')) :
    last' = if row.signal = 1 ∧ last ≠ 1 then 1
            else if row.signal = -1 ∧ last ≠ -1 then -1
            else last := by
  unfold step at h
  by_cases h1 : row.signal = 1 ∧ last ≠ 1
  · rw [if_pos h1] at h
    rw [if_pos h1]
    cases hb : Portfolio.buy pf row.close row.ts with
    | error e => rw [hb] at h; cases h
    | ok q =>
      rw [hb] at h
      simp only [Except.ok.injEq, Prod.mk.injEq] at h
      exact h.2.symm
  · rw [if_neg h1] at h
    rw [if_neg h1]
    by_cases h2 : row.signal = -1 ∧ last ≠ -1
    · rw [if_pos h2] at h
      rw [if_pos h2]
      cases hs : Portfolio.sell pf row.close row.ts with
      | error e => rw [hs] at h; cases h
      | ok q =>
        rw [hs] at h
        simp only [Except.ok.injEq, Prod.mk.injEq] at h
        exact h.2.symm
    · rw [if_neg h2] at h
      rw [if_neg h2]
      simp only [Except.ok.injEq, Prod.mk.injEq] at h
      exact h.2.symm

/-- C4 witness: on the no-trade row of the counterexample (flat ledger,
signal `-1`, previous `last_signal = 0`), the characterisation gives
`last_signal = -1`. -/
theorem c4_last_signal_update_witness :
    (-1 : ℤ) = if (⟨1, .num 100, -1⟩ : Row).signal = 1 ∧ (0 : ℤ) ≠ 1 then 1
               else if (⟨1, .num 100, -1⟩ : Row).signal = -1 ∧ (0 : ℤ) ≠ -1
               then -1 else 0 := by
  have h := c4_last_signal_update (Portfolio.init 100000) 0
    ⟨1, .num 100, -1⟩ (Portfolio.init 100000) (-1)
    (by norm_num [step, Portfolio.sell, Portfolio.to_scalar, Portfolio.init])
  exact h

/-- The driver loop processes a concatenation sequentially: the second
block runs from the state the first block reached, and an error in the
first block short-circuits. -/
theorem runRows_append (xs ys : List Row) (pf : Portfolio) (last : ℤ) :
    runRows pf last (xs ++ ys) =
      match runRows pf last xs with
      | .error e => .error e
      | .ok (pf', last') => runRows pf' last' ys := by
  induction xs generalizing pf last with
  | nil => rfl
  | cons r rs ih =>
    simp only [List.cons_append, runRows]
    cases step pf last r with
    | error e => rfl
    | ok q => exact ih q.1 q.2

/-- C8: if the rows processed so far brought the ledger to `pf1` and the
next row's `buy`/`sell` call fails (price-coercion failure or the zero
division), the whole run aborts exactly there: the reported ledger state
is `pf1` itself — cash, position and every already-appended trade record
unchanged, no rollback — and no later row is processed. -/
theorem c8_abort_preserves_history (cap : ℚ) (rows1 : List Row) (row : Row)
    (rows2 : List Row) (pf1 : Portfolio) (l1 : ℤ) (e : PErr)
    (hpre : runRows (Portfolio.init cap) 0 rows1 = .ok (pf1, l1))
    (hfail : step pf1 l1 row = .error e) :
    run_backtest (rows1 ++ row :: rows2) cap =
      .error (.portfolioErr pf1 e) := by
  unfold run_backtest
  rw [runRows_append, hpre]
  simp only [runRows, hfail]

/-- C8 witness: a run that buys at 100, then hits a sell whose price is
an uncoercible Python list, aborts with the `ValueError` and the BUY
record intact; the trailing row is never processed. -/
theorem c8_abort_preserves_history_witness :
    run_backtest
        ([⟨1, .num 100, 1⟩] ++ ⟨2, .pyList [90], -1⟩ :: [⟨3, .num 80, -1⟩])
        100000 =
      .error (.portfolioErr
        { cash := 0, position := 1000,
          trade_log := [(1, TradeAction.BUY, 100)] } .valueError) := by
  apply c8_abort_preserves_history 100000 [⟨1, .num 100, 1⟩]
    ⟨2, .pyList [90], -1⟩ [⟨3, .num 80, -1⟩]
    { cash := 0, position := 1000, trade_log := [(1, TradeAction.BUY, 100)] }
    1 .valueError
  · norm_num [runRows, step, Portfolio.buy, Portfolio.to_scalar,
      Portfolio.init]
  · rfl

/-- C2: with any positive initial capital, any five positive close
prices and the signal sequence `[+1, +1, +1, -1, -1]`, the run succeeds
and the trade log is exactly one BUY at the first row followed by
exactly one SELL at the fourth row — consecutive duplicate signals are
debounced into a single transaction each. -/
theorem c2_debounce_idempotence (cap p1 p2 p3 p4 p5 : ℚ)
    (t1 t2 t3 t4 t5 : Nat) (hcap : 0 < cap) (hp1 : 0 < p1) (hp2 : 0 < p2)
    (hp3 : 0 < p3) (hp4 : 0 < p4) (hp5 : 0 < p5) :
    ∃ pf v, run_backtest
        [⟨t1, .num p1, 1⟩, ⟨t2, .num p2, 1⟩, ⟨t3, .num p3, 1⟩,
         ⟨t4, .num p4, -1⟩, ⟨t5, .num p5, -1⟩] cap = .ok (pf, v) ∧
      pf.trade_log = [(t1, TradeAction.BUY, p1), (t4, TradeAction.SELL, p4)] := by
  have hp1ne : p1 ≠ 0 := ne_of_gt hp1
  have hpos : 0 < cap / p1 := div_pos hcap hp1
  refine ⟨⟨cap / p1 * p4, 0, [(t1, TradeAction.BUY, p1), (t4, TradeAction.SELL, p4)]⟩,
    cap / p1 * p4 + 0 * p5, ?_, rfl⟩
  unfold run_backtest
  have hrun : runRows (Portfolio.init cap) 0
      [⟨t1, .num p1, 1⟩, ⟨t2, .num p2, 1⟩, ⟨t3, .num p3, 1⟩,
       ⟨t4, .num p4, -1⟩, ⟨t5, .num p5, -1⟩] =
      .ok (⟨cap / p1 * p4, 0,
        [(t1, TradeAction.BUY, p1), (t4, TradeAction.SELL, p4)]⟩, -1) := by
    simp only [runRows, step, Portfolio.buy, Portfolio.sell,
      Portfolio.to_scalar, Portfolio.init]
    norm_num [hp1ne, hpos]
  rw [hrun]
  simp [Portfolio.value, Portfolio.to_scalar, List.getLast?]

/-- C2 witness: the debounce property at capital 100000 and prices
100, 110, 120, 90, 95. -/
theorem c2_debounce_idempotence_witness :
    ∃ pf v, run_backtest
        [⟨1, .num 100, 1⟩, ⟨2, .num 110, 1⟩, ⟨3, .num 120, 1⟩,
         ⟨4, .num 90, -1⟩, ⟨5, .num 95, -1⟩] 100000 = .ok (pf, v) ∧
      pf.trade_log = [(1, TradeAction.BUY, 100), (4, TradeAction.SELL, 90)] :=
  c2_debounce_idempotence 100000 100 110 120 90 95 1 2 3 4 5
    (by norm_num) (by norm_num) (by norm_num) (by norm_num) (by norm_num)
    (by norm_num)

/-- Ledger states reachable from `Portfolio.init c0` by any sequence of
`buy`/`sell` calls whose price arguments coerce to positive scalars —
the spec's coercible-finite-positive price precondition. -/
inductive Reachable (c0 : ℚ) : Portfolio → Prop
  | init : Reachable c0 (Portfolio.init c0)
  | buy (pf pf' : Portfolio) (price : PriceLike) (d : Nat) (p : ℚ)
      (hr : Reachable c0 pf) (hc : Portfolio.to_scalar price = .ok p)
      (hp : 0 < p) (hok : Portfolio.buy pf price d = .ok pf') :
      Reachable c0 pf'
  | sell (pf pf' : Portfolio) (price : PriceLike) (d : Nat) (p : ℚ)
      (hr : Reachable c0 pf) (hc : Portfolio.to_scalar price = .ok p)
      (hp : 0 < p) (hok : Portfolio.sell pf price d = .ok pf') :
      Reachable c0 pf'

/-- The core state invariant: from positive capital every reachable
state has exactly one of `cash > 0` (with `position = 0`) or
`position > 0` (with `cash = 0`); from zero capital both stay zero. -/
theorem reachable_state_invariant (c0 : ℚ) (pf : Portfolio)
    (hr : Reachable c0 pf) :
    (0 < c0 → (0 < pf.cash ∧ pf.position = 0) ∨
              (pf.cash = 0 ∧ 0 < pf.position)) ∧
    (c0 = 0 → pf.cash = 0 ∧ pf.position = 0) := by
  induction hr with
  | init =>
    exact ⟨fun h => Or.inl ⟨h, rfl⟩, fun h => ⟨h, rfl⟩⟩
  | buy pf pf' price d p hr hc hp hok ih =>
    simp only [Portfolio.buy, hc] at hok
    by_cases hflat : pf.position = 0
    · rw [if_pos hflat, if_neg (ne_of_gt hp)] at hok
      simp only [Except.ok.injEq] at hok
      subst hok
      refine ⟨fun h0 => ?_, fun h0 => ?_⟩
      · rcases ih.1 h0 with ⟨hc1, _⟩ | ⟨hc1, hp1⟩
        · exact Or.inr ⟨rfl, div_pos hc1 hp⟩
        · exact absurd hflat (ne_of_gt hp1)
      · rcases ih.2 h0 with ⟨hc1, _⟩
        simp [hc1]
    · rw [if_neg hflat] at hok
      simp only [Except.ok.injEq] at hok
      subst hok
      exact ih
  | sell pf pf' price d p hr hc hp hok ih =>
    simp only [Portfolio.sell, hc] at hok
    by_cases hhold : 0 < pf.position
    · rw [if_pos hhold] at hok
      simp only [Except.ok.injEq] at hok
      subst hok
      refine ⟨fun h0 => ?_, fun h0 => ?_⟩
      · exact Or.inl ⟨mul_pos hhold hp, rfl⟩
      · exact absurd (ih.2 h0).2 (ne_of_gt hhold)
    · rw [if_neg hhold] at hok
      simp only [Except.ok.injEq] at hok
      subst hok
      exact ih

/-- C1: over every reachable ledger state from non-negative capital,
cash and position are never both positive; with positive capital exactly
one of `cash > 0` / `position > 0` holds in every reachable state; and a
state with both zero is reachable only when the run was initialized with
zero capital (from which both stay zero forever). -/
theorem c1_fully_invested_or_out (c0 : ℚ) (pf : Portfolio)
    (hc0 : 0 ≤ c0) (hr : Reachable c0 pf) :
    ¬(0 < pf.cash ∧ 0 < pf.position) ∧
    (0 < c0 → ((0 < pf.cash ∧ pf.position = 0) ∨
               (pf.cash = 0 ∧ 0 < pf.position))) ∧
    (pf.cash = 0 ∧ pf.position = 0 → c0 = 0) ∧
    (c0 = 0 → pf.cash = 0 ∧ pf.position = 0) := by
  have hinv := reachable_state_invariant c0 pf hr
  rcases lt_or_eq_of_le hc0 with hpos | hzero
  · refine ⟨?_, fun _ => hinv.1 hpos, ?_, fun h0 => absurd h0 (ne_of_gt hpos)⟩
    · rcases hinv.1 hpos with ⟨_, hp0⟩ | ⟨hc0', _⟩
      · rintro ⟨_, hp⟩
        exact absurd hp0 (ne_of_gt hp)
      · rintro ⟨hc', _⟩
        exact absurd hc0' (ne_of_gt hc')
    · rintro ⟨hc', hp'⟩
      rcases hinv.1 hpos with ⟨hcp, _⟩ | ⟨_, hpp⟩
      · exact absurd hc' (ne_of_gt hcp)
      · exact absurd hp' (ne_of_gt hpp)
  · have hboth := hinv.2 hzero.symm
    refine ⟨?_, fun h => absurd hzero (ne_of_gt h).symm, fun _ => hzero.symm,
      fun _ => hboth⟩
    rintro ⟨hc', _⟩
    exact absurd hboth.1 (ne_of_gt hc')

/-- C1 witness: the invariant at the freshly initialized ledger with
capital 100000 — cash 100000 and position 0, exactly one positive. -/
theorem c1_fully_invested_or_out_witness :
    ¬(0 < (Portfolio.init 100000).cash ∧
      0 < (Portfolio.init 100000).position) ∧
    (0 < (100000 : ℚ) →
      ((0 < (Portfolio.init 100000).cash ∧
        (Portfolio.init 100000).position = 0) ∨
       ((Portfolio.init 100000).cash = 0 ∧
        0 < (Portfolio.init 100000).position))) := by
  have h := c1_fully_invested_or_out 100000 (Portfolio.init 100000)
    (by norm_num) Reachable.init
  exact ⟨h.1, h.2.1⟩
